import Mathlib

/-!
# Mapty (`src/script.js`): workout records, persistence and the form controller

A shallow embedding of `script.js`.

* JavaScript numbers are `JSNum`: an exact rational, `NaN`, `+Infinity` or `-Infinity`.
  Rounding to binary64, overflow, underflow and the sign of zero are not modelled.
* JavaScript values are `JSValue`; an object is the list of its own properties in creation
  order (prototypes are not modelled).
* The DOM, the Leaflet map, `localStorage`, the clock and `alert` are explicit fields of
  `State` or explicit arguments of the handlers.
-/

namespace Mapty

/-! ## Numbers -/

/-- A JavaScript number. -/
inductive JSNum where
  | fin (q : ℚ)
  | nan
  | posInf
  | negInf
  deriving DecidableEq, Repr

namespace JSNum

/-- Truthiness of a number: `0` and `NaN` are falsy. -/
def truthy : JSNum → Bool
  | fin q => decide (q ≠ 0)
  | nan => false
  | _ => true

end JSNum

/-! ## Unary plus on a string (`+input.value`) -/

/-- White space and line terminators stripped by the string-to-number conversion. -/
def isStrWhiteSpace (c : Char) : Bool :=
  let n := c.toNat
  n = 9 || n = 10 || n = 11 || n = 12 || n = 13 || n = 32 || n = 0xA0 || n = 0x1680 ||
  (0x2000 ≤ n && n ≤ 0x200A) || n = 0x2028 || n = 0x2029 || n = 0x202F || n = 0x205F ||
  n = 0x3000 || n = 0xFEFF

/-- Value of one digit character in the given base, if it is one. -/
def digitValue (base : Nat) (c : Char) : Option Nat :=
  let n := c.toNat
  let v :=
    if 48 ≤ n && n ≤ 57 then some (n - 48)
    else if 97 ≤ n && n ≤ 102 then some (n - 87)
    else if 65 ≤ n && n ≤ 70 then some (n - 55)
    else none
  match v with
  | some d => if d < base then some d else none
  | none => none

/-- Value of a digit sequence continuing the accumulator `acc`. -/
def digitsValueFrom (base : Nat) : Nat → List Char → Option Nat
  | acc, [] => some acc
  | acc, c :: cs =>
    match digitValue base c with
    | some d => digitsValueFrom base (acc * base + d) cs
    | none => none

/-- Value of a non-empty digit sequence. -/
def digitsValue (base : Nat) (cs : List Char) : Option Nat :=
  if cs.isEmpty then none else digitsValueFrom base 0 cs

/-- What a numeric string literal denotes before it becomes a number. -/
inductive NumLit where
  /-- The number `mant * 10 ^ exp`. -/
  | dec (mant : Int) (exp : Int)
  | infinity (negative : Bool)
  | notANumber
  deriving DecidableEq, Repr

/-- The exponent part after `e` or `E`: an optional sign and decimal digits. -/
def parseExponent : List Char → Option Int
  | '+' :: cs => (digitsValue 10 cs).map Int.ofNat
  | '-' :: cs => (digitsValue 10 cs).map (fun n => - Int.ofNat n)
  | cs => (digitsValue 10 cs).map Int.ofNat

/-- An unsigned decimal literal: `digits`, `digits.`, `digits.digits` or `.digits`, each with
an optional exponent part. The result is a mantissa and a power of ten. -/
def parseUnsignedDecimal (cs : List Char) : Option (Nat × Int) :=
  let body := cs.takeWhile (fun c => c ≠ 'e' && c ≠ 'E')
  let rest := cs.drop body.length
  let intPart := body.takeWhile (fun c => c ≠ '.')
  let afterInt := body.drop intPart.length
  let fracPart : Option (List Char) :=
    match afterInt with
    | [] => some []
    | _ :: fs => if intPart.isEmpty && fs.isEmpty then none else some fs
  let expo : Option Int :=
    match rest with
    | [] => some 0
    | _ :: es => parseExponent es
  match fracPart, expo with
  | some fs, some e =>
    if intPart.isEmpty && fs.isEmpty then none
    else
      match digitsValueFrom 10 0 (intPart ++ fs) with
      | some m => some (m, e - Int.ofNat fs.length)
      | none => none
  | _, _ => none

/-- A decimal literal without its sign, or `Infinity`. -/
def parseUnsigned (negative : Bool) (cs : List Char) : NumLit :=
  if cs = "Infinity".data then NumLit.infinity negative
  else
    match parseUnsignedDecimal cs with
    | some (m, e) => NumLit.dec (if negative then - Int.ofNat m else Int.ofNat m) e
    | none => NumLit.notANumber

/-- The literal denoted by a trimmed, non-empty string. -/
def parseNumLit : List Char → NumLit
  | '0' :: 'x' :: cs | '0' :: 'X' :: cs =>
    match digitsValue 16 cs with
    | some n => NumLit.dec (Int.ofNat n) 0
    | none => NumLit.notANumber
  | '0' :: 'o' :: cs | '0' :: 'O' :: cs =>
    match digitsValue 8 cs with
    | some n => NumLit.dec (Int.ofNat n) 0
    | none => NumLit.notANumber
  | '0' :: 'b' :: cs | '0' :: 'B' :: cs =>
    match digitsValue 2 cs with
    | some n => NumLit.dec (Int.ofNat n) 0
    | none => NumLit.notANumber
  | '+' :: cs => parseUnsigned false cs
  | '-' :: cs => parseUnsigned true cs
  | cs => parseUnsigned false cs

/-- The string with leading and trailing white space removed. -/
def trimStr (cs : List Char) : List Char :=
  ((cs.dropWhile isStrWhiteSpace).reverse.dropWhile isStrWhiteSpace).reverse

/-- The literal a string denotes; the empty or blank string denotes `0`. -/
def readNumLit (s : String) : NumLit :=
  let cs := trimStr s.data
  if cs.isEmpty then NumLit.dec 0 0 else parseNumLit cs

/-- The number a literal stands for. -/
def NumLit.toNum : NumLit → JSNum
  | NumLit.dec m e =>
    if 0 ≤ e then JSNum.fin ((m : ℚ) * (10 : ℚ) ^ e.toNat)
    else JSNum.fin ((m : ℚ) / (10 : ℚ) ^ (-e).toNat)
  | NumLit.infinity false => JSNum.posInf
  | NumLit.infinity true => JSNum.negInf
  | NumLit.notANumber => JSNum.nan

/-- Unary plus applied to a string, as in `+inputDistance.value`. -/
def toNumber (s : String) : JSNum := (readNumLit s).toNum

/-! ## Dates -/

/-- Decimal text of a natural number, left-padded with zeros to at least `width` characters. -/
def padZero (width n : Nat) : String :=
  let digits := toString n
  String.mk (List.replicate (width - digits.length) '0') ++ digits

/-- Year, month (1 to 12) and day of month of the day that is `days` days after 1970-01-01. -/
def civilFromDays (days : Nat) : Nat × Nat × Nat :=
  let z := days + 719468
  let era := z / 146097
  let doe := z % 146097
  let yoe := (doe - doe / 1460 + doe / 36524 - doe / 146096) / 365
  let doy := doe - (365 * yoe + yoe / 4 - yoe / 100)
  let mp := (5 * doy + 2) / 153
  let d := doy - (153 * mp + 2) / 5 + 1
  let m := if mp < 10 then mp + 3 else mp - 9
  let y := yoe + era * 400 + (if m ≤ 2 then 1 else 0)
  (y, m, d)

/-- The method `Date.prototype.toISOString` (used by `toJSON`) for the time value `t`,
in milliseconds since the epoch. -/
def toISOString (t : Nat) : String :=
  let (y, m, d) := civilFromDays (t / 86400000)
  let ms := t % 86400000
  let year := if y ≤ 9999 then padZero 4 y else "+" ++ padZero 6 y
  year ++ "-" ++ padZero 2 m ++ "-" ++ padZero 2 d ++ "T" ++
    padZero 2 (ms / 3600000) ++ ":" ++ padZero 2 (ms / 60000 % 60) ++ ":" ++
    padZero 2 (ms / 1000 % 60) ++ "." ++ padZero 3 (ms % 1000) ++ "Z"

/-- A JavaScript value. An object is the list of its own enumerable properties in creation
order; a `Date` object is its time value. -/
inductive JSValue where
  | undefined
  | null
  | bool (b : Bool)
  | num (n : JSNum)
  | str (s : String)
  | date (t : Nat)
  | arr (xs : List JSValue)
  | obj (props : List (String × JSValue))

/-- An exception thrown by the program. -/
inductive JSError where
  | typeError
  | syntaxError
  deriving DecidableEq, Repr

namespace JSValue

/-- First property with the given key. -/
def lookup (k : String) : List (String × JSValue) → Option JSValue
  | [] => none
  | (k', v) :: ps => if k' = k then some v else lookup k ps

/-- Property read `v.k` for the property names this program reads (`type`, `id`, `coord`,
`pace`, ...): it throws on `undefined` and `null`, and is `undefined` where the property
is missing. -/
def get (v : JSValue) (k : String) : Except JSError JSValue :=
  match v with
  | undefined => Except.error JSError.typeError
  | null => Except.error JSError.typeError
  | obj props => Except.ok ((lookup k props).getD undefined)
  | _ => Except.ok undefined

/-- Truthiness (`!v` is its negation). -/
def truthy : JSValue → Bool
  | undefined => false
  | null => false
  | bool b => b
  | num n => n.truthy
  | str s => !s.isEmpty
  | _ => true

/-- Strict equality `v === 'text'` against a string. -/
def isStr (v : JSValue) (text : String) : Bool :=
  match v with
  | str s => s == text
  | _ => false

end JSValue

/-! ## The classes `Workout`, `Running` and `Cycling` -/

/-- A JSON value; an object is its members as `JSON.parse` keeps them, one per key. -/
inductive JSON where
  | null
  | bool (b : Bool)
  | num (q : ℚ)
  | str (s : String)
  | arr (xs : List JSON)
  | obj (members : List (String × JSON))

/-- The text stored under a `localStorage` key, represented by what `JSON.parse` makes of it:
the JSON value it denotes, or, for a text that is not JSON, the text alone. Printing a JSON
value and reading the text back (which the language guarantees to give the same value) is
not modelled. -/
inductive Stored where
  | json (j : JSON)
  | notJSON (text : String)

mutual
/-- The JSON value `JSON.stringify` serialises a value to; `none` where it yields
`undefined`. A `Date` is serialised through `toJSON`, a non-finite number as `null`. -/
def toJSON : JSValue → Option JSON
  | JSValue.undefined => none
  | JSValue.null => some JSON.null
  | JSValue.bool b => some (JSON.bool b)
  | JSValue.num (JSNum.fin q) => some (JSON.num q)
  | JSValue.num _ => some JSON.null
  | JSValue.str s => some (JSON.str s)
  | JSValue.date t => some (JSON.str (toISOString t))
  | JSValue.arr xs => some (JSON.arr (toJSONList xs))
  | JSValue.obj props => some (JSON.obj (toJSONProps props))
/-- Elements of an array; `undefined` becomes `null`. -/
def toJSONList : List JSValue → List JSON
  | [] => []
  | x :: xs => (toJSON x).getD JSON.null :: toJSONList xs
/-- Members of an object; a property whose value is `undefined` is left out. -/
def toJSONProps : List (String × JSValue) → List (String × JSON)
  | [] => []
  | (k, v) :: ps =>
    match toJSON v with
    | some j => (k, j) :: toJSONProps ps
    | none => toJSONProps ps
end

mutual
/-- The value `JSON.parse` builds from a JSON value (no reviver): plain objects, arrays and
primitives. -/
def fromJSON : JSON → JSValue
  | JSON.null => JSValue.null
  | JSON.bool b => JSValue.bool b
  | JSON.num q => JSValue.num (JSNum.fin q)
  | JSON.str s => JSValue.str s
  | JSON.arr xs => JSValue.arr (fromJSONList xs)
  | JSON.obj members => JSValue.obj (fromJSONProps members)
/-- Elements of a parsed array. -/
def fromJSONList : List JSON → List JSValue
  | [] => []
  | x :: xs => fromJSON x :: fromJSONList xs
/-- Properties of a parsed object. -/
def fromJSONProps : List (String × JSON) → List (String × JSValue)
  | [] => []
  | (k, v) :: ps => (k, fromJSON v) :: fromJSONProps ps
end

/-- The call `JSON.parse(localStorage.getItem(key))`; a missing key reads as `null`, which
parses to `null`. -/
def parseItem : Option Stored → Except JSError JSValue
  | none => Except.ok JSValue.null
  | some (Stored.json j) => Except.ok (fromJSON j)
  | some (Stored.notJSON _) => Except.error JSError.syntaxError

/-! ## The page and the application object -/

/-- A `latlng` of the map library. -/
structure LatLng where
  lat : JSNum
  lng : JSNum
  deriving DecidableEq, Repr

/-- What a marker's popup shows. -/
inductive Popup where
  | currentPosition
  /-- Popup of a workout: its `type` (class name and icon) and its `description`. -/
  | workout (type description : JSValue)

/-- A marker placed on the map. -/
structure Marker where
  coord : JSValue
  popup : Popup

/-- The map object `#map`: its view and the markers added to it. How the map library reacts
to coordinates that are not a pair of numbers is not modelled. -/
structure MapView where
  center : JSValue
  zoom : Nat
  markers : List Marker

/-- One `<li class="workout">` entry rendered in the list: the data put into the markup. -/
structure ListItem where
  type : JSValue
  id : JSValue
  description : JSValue
  distance : JSValue
  duration : JSValue
  /-- Pace or speed (shown with one decimal) and cadence or elevation gain, when the type is
  `running` or `cycling`. -/
  details : Option (JSNum × JSValue)

/-- The private fields of `App`, the parts of the page the handlers touch, and the
environment. -/
structure State where
  /-- Field `#map`; `none` until `_loadMap` ran. -/
  map : Option MapView
  /-- The `latlng` of field `#mapEvent`; `none` until the map was clicked. -/
  mapEvent : Option LatLng
  /-- Field `#mapZoom`. -/
  mapZoom : Nat
  /-- Field `#workouts`. -/
  workouts : JSValue
  /-- Whether `form` has the class `hidden`. -/
  formHidden : Bool
  /-- Inline style `form.style.display`. -/
  formDisplay : String
  /-- Callbacks scheduled by `setTimeout` in `_hideForm` that did not run yet. -/
  pendingTimers : Nat
  /-- Whether `inputDistance` has the focus. -/
  distanceFocused : Bool
  inputType : String
  inputDistance : String
  inputDuration : String
  inputCadence : String
  inputElevation : String
  /-- Whether the row of `inputElevation` has the class `form__row--hidden`. -/
  elevationRowHidden : Bool
  /-- Whether the row of `inputCadence` has the class `form__row--hidden`. -/
  cadenceRowHidden : Bool
  /-- List entries after the form, the most recently inserted first. -/
  listItems : List ListItem
  /-- The item `workouts` of `localStorage`. -/
  storage : Option Stored
  /-- Messages shown by `alert`, oldest first. -/
  alerts : List String

/-- How a handler ended: the state it left and the exception it threw, if any. -/
structure Outcome where
  state : State
  thrown : Option JSError

/-- Normal completion. -/
def Outcome.done (st : State) : Outcome := ⟨st, none⟩

/-- Abrupt completion with an exception. -/
def Outcome.throw (e : JSError) (st : State) : Outcome := ⟨st, some e⟩

/-- The callback `() => (form.style.display = 'grid')` scheduled by `_hideForm`. -/
def hideFormTimeout (st : State) : State :=
  { st with formDisplay := "grid", pendingTimers := st.pendingTimers - 1 }

/-- Method `_toggleElevetionField`: `classList.toggle('form__row--hidden')` on both rows. -/
def _toggleElevetionField (st : State) : State :=
  { st with
    elevationRowHidden := !st.elevationRowHidden, cadenceRowHidden := !st.cadenceRowHidden }

/-- Method `#renderWorkoutMarker(workout)`. -/
def renderWorkoutMarker (workout : JSValue) (st : State) : Outcome :=
  match workout.get "coord", workout.get "type", workout.get "description" with
  | Except.ok coord, Except.ok type, Except.ok description =>
    match st.map with
    | some m =>
      Outcome.done
        { st with map := some { m with markers := m.markers ++ [⟨coord, Popup.workout type description⟩] } }
    | none => Outcome.throw JSError.typeError st
  | _, _, _ => Outcome.throw JSError.typeError st

/-- The markup `#renderWorkout` builds; `workout.pace.toFixed(1)` and
`workout.speed.toFixed(1)` throw unless the property is a number. -/
def workoutMarkup (workout : JSValue) : Except JSError ListItem := do
  let type ← workout.get "type"
  let id ← workout.get "id"
  let description ← workout.get "description"
  let distance ← workout.get "distance"
  let duration ← workout.get "duration"
  let item : ListItem := ⟨type, id, description, distance, duration, none⟩
  let item ←
    if type.isStr "running" then
      match ← workout.get "pace" with
      | JSValue.num pace => pure { item with details := some (pace, ← workout.get "cadence") }
      | _ => throw JSError.typeError
    else pure item
  if type.isStr "cycling" then
    match ← workout.get "speed" with
    | JSValue.num speed => pure { item with details := some (speed, ← workout.get "elevationGain") }
    | _ => throw JSError.typeError
  else pure item

/-- Method `#renderWorkout(workout)`: the entry is inserted right after the form. -/
def renderWorkout (workout : JSValue) (st : State) : Outcome :=
  match workoutMarkup workout with
  | Except.ok item => Outcome.done { st with listItems := item :: st.listItems }
  | Except.error e => Outcome.throw e st

/-- The loop `array.forEach(work => body(work))`: it stops at the first exception. -/
def forEach (body : JSValue → State → Outcome) : List JSValue → State → Outcome
  | [], st => Outcome.done st
  | work :: rest, st =>
    match (body work st).thrown with
    | none => forEach body rest (body work st).state
    | some e => Outcome.throw e (body work st).state

/-- The call `this.#workouts.forEach(...)`, a `TypeError` unless `#workouts` is an array. -/
def forEachWorkout (body : JSValue → State → Outcome) (st : State) : Outcome :=
  match st.workouts with
  | JSValue.arr xs => forEach body xs st
  | _ => Outcome.throw JSError.typeError st

/-- Method `_loadMap(position)` for the position `coords = [latitude, longitude]`. -/
def _loadMap (latitude longitude : JSNum) (st : State) : Outcome :=
  let coords := JSValue.arr [JSValue.num latitude, JSValue.num longitude]
  let st := { st with map := some ⟨coords, st.mapZoom, [⟨coords, Popup.currentPosition⟩]⟩ }
  forEachWorkout renderWorkoutMarker st

/-- Method `_getLocalStorage`. -/
def _getLocalStorage (st : State) : Outcome :=
  match parseItem st.storage with
  | Except.error e => Outcome.throw e st
  | Except.ok data =>
    if !data.truthy then Outcome.done st
    else forEachWorkout renderWorkout { st with workouts := data }

/-- The comparison `el.id === id` where `id` is `htmlEl.dataset.id`: a string, or
`undefined` (`none`) when the element has no `data-id`. -/
def idMatches (v : JSValue) (id : Option String) : Bool :=
  match v, id with
  | JSValue.str s, some s' => s == s'
  | JSValue.undefined, none => true
  | _, _ => false

/-- The call `array.find(el => el.id === id)`: the first match, `undefined` if there is
none. -/
def findById (id : Option String) : List JSValue → Except JSError JSValue
  | [] => Except.ok JSValue.undefined
  | el :: rest =>
    match el.get "id" with
    | Except.error e => Except.error e
    | Except.ok v => if idMatches v id then Except.ok el else findById id rest

/-- The call `this.#workouts.find(el => el.id === id)`. -/
def findWorkout (id : Option String) (st : State) : Except JSError JSValue :=
  match st.workouts with
  | JSValue.arr xs => findById id xs
  | _ => Except.error JSError.typeError

/-- Method `_activeClickedPopup(e)`. The argument is `e.target.closest('.workout')`:
`none` when the click was outside every list entry, else the entry's `dataset.id`. -/
def _activeClickedPopup (htmlEl : Option (Option String)) (st : State) : Outcome :=
  match htmlEl with
  | none => Outcome.done st
  | some id =>
    match findWorkout id st with
    | Except.error e => Outcome.throw e st
    | Except.ok workout =>
      match st.map, workout.get "coord" with
      | some m, Except.ok coord =>
        Outcome.done { st with map := some { m with center := coord, zoom := st.mapZoom } }
      | _, _ => Outcome.throw JSError.typeError st

/-! ## Sessions -/

/-- The application right after the field initialisers of `new App()`, on a page whose form
is hidden and set to running, with `storage` under the key `workouts`. -/
def freshState (storage : Option Stored) : State :=
  { map := none, mapEvent := none, mapZoom := 13, workouts := JSValue.arr [],
    formHidden := true, formDisplay := "", pendingTimers := 0, distanceFocused := false,
    inputType := "running", inputDistance := "", inputDuration := "", inputCadence := "",
    inputElevation := "", elevationRowHidden := true, cadenceRowHidden := false,
    listItems := [], storage := storage, alerts := [] }

/-- The constructor of `App` on a page with `storage` under the key `workouts`:
`_getPosition` only requests the position, `_getLocalStorage` loads the stored log, and the
handlers are registered if nothing was thrown. -/
def App (storage : Option Stored) : Outcome := _getLocalStorage (freshState storage)

/-- A number that is finite and greater than zero. -/
def FinitePositive (n : JSNum) : Prop := ∃ q : ℚ, n = JSNum.fin q ∧ 0 < q

/-- Stored text `[{"coord": [51.5, -0.1], "distance": 5}]`: one record, without id and
without type. -/
def tamperedStorage : Option Stored :=
  some (Stored.json (JSON.arr [JSON.obj
    [("coord", JSON.arr [JSON.num 51.5, JSON.num (-0.1)]), ("distance", JSON.num 5)]]))

/-- The session started on `tamperedStorage`: the constructor ran, then the position
(51.5, -0.1) arrived and `_loadMap` ran. -/
def tamperedSession : State :=
  (_loadMap (JSNum.fin 51.5) (JSNum.fin (-0.1)) (App tamperedStorage).state).state

/-! # Theorems -/

/-! ## Validation and sample texts -/

theorem not_finitePositive_nan : ¬ FinitePositive JSNum.nan := by
  rintro ⟨q', hq, _⟩
  cases hq

theorem toNumber_of_lit (s : String) (l : NumLit) (h : readNumLit s = l) :
    toNumber s = l.toNum := by
  simp [toNumber, h]

theorem toNumber_abc : toNumber "abc" = JSNum.nan := by
  rw [toNumber_of_lit "abc" NumLit.notANumber (by decide)]; simp [NumLit.toNum]

/-! ## Record construction -/

/-- C10: toggling twice restores the state, so the visibility of both rows; one toggle flips
the visibility of both rows and leaves the distance and duration values, the workout log
and the visibility of the form as they were. -/
theorem toggle_twice_restores (st : State) :
    _toggleElevetionField (_toggleElevetionField st) = st ∧
      (_toggleElevetionField st).elevationRowHidden = (!st.elevationRowHidden) ∧
      (_toggleElevetionField st).cadenceRowHidden = (!st.cadenceRowHidden) ∧
      (_toggleElevetionField st).inputDistance = st.inputDistance ∧
      (_toggleElevetionField st).inputDuration = st.inputDuration ∧
      (_toggleElevetionField st).workouts = st.workouts ∧
      (_toggleElevetionField st).formHidden = st.formHidden := by
  refine ⟨?_, rfl, rfl, rfl, rfl, rfl, rfl⟩
  cases st
  simp [_toggleElevetionField]

/-! ## Submitting the form -/

theorem findById_none (id : Option String) (log : List JSValue)
    (hstale : ∀ el ∈ log, ∃ v, el.get "id" = Except.ok v ∧ idMatches v id = false) :
    findById id log = Except.ok JSValue.undefined := by
  induction log with
  | nil => rfl
  | cons el rest ih =>
    obtain ⟨v, hv, hne⟩ := hstale el (List.mem_cons_self _ _)
    rw [findById, hv]
    simp only [hne, Bool.false_eq_true, if_false]
    exact ih (fun e he => hstale e (List.mem_cons_of_mem _ he))

/-- Selecting an entry whose id matches no record throws a `TypeError` (the read of
`workout.coord` on `undefined`) and leaves the state as it was. -/
theorem stale_selection_throws (id : Option String) (log : List JSValue) (st : State)
    (hlog : st.workouts = JSValue.arr log)
    (hstale : ∀ el ∈ log, ∃ v, el.get "id" = Except.ok v ∧ idMatches v id = false) :
    _activeClickedPopup (some id) st = Outcome.throw JSError.typeError st := by
  simp [_activeClickedPopup, findWorkout, hlog, findById_none id log hstale, JSValue.get]

/-- C6: the code at the failing input. The session starts on the stored text
`[{"coord": [51.5, -0.1], "distance": 5}]`; the constructor and `_loadMap` complete and the
list shows one entry, whose `data-id` is the text `undefined` as the record has no id.
Selecting that entry finds no record (the record's `id` is `undefined`, not that text) and
the handler throws a `TypeError`; the map and the rest of the state stay as they were. -/
theorem stale_selection_type_error :
    (App tamperedStorage).thrown = none ∧
    (_loadMap (JSNum.fin 51.5) (JSNum.fin (-0.1)) (App tamperedStorage).state).thrown = none ∧
    tamperedSession.listItems.map ListItem.id = [JSValue.undefined] ∧
    findWorkout (some "undefined") tamperedSession = Except.ok JSValue.undefined ∧
    (_activeClickedPopup (some (some "undefined")) tamperedSession).thrown
      = some JSError.typeError ∧
    (_activeClickedPopup (some (some "undefined")) tamperedSession).state = tamperedSession := by
  have h := stale_selection_throws (some "undefined")
    [JSValue.obj [("coord", JSValue.arr [JSValue.num (JSNum.fin 51.5),
      JSValue.num (JSNum.fin (-0.1))]), ("distance", JSValue.num (JSNum.fin 5))]]
    tamperedSession rfl
    (by
      intro el hel
      rw [List.mem_singleton] at hel
      subst hel
      exact ⟨JSValue.undefined, rfl, rfl⟩)
  rw [h]
  exact ⟨rfl, rfl, rfl, rfl, rfl, rfl⟩

/-! ## Persistence -/

end Mapty
